import Mathlib

/-!
Shallow embedding of the judging engine of the SC_Coding_APP repository:
the `CodeExecutor` service (`server/index.js`, second part: `normalizeOutput`,
`compile`, `prepareFiles`, `runTestCase`, `execute`) and the submission
processing task (`server/routes/submissions.js`, `processSubmission`).

Effectful steps (child-process execution, file reads) are modelled by passing
their observable outcomes in as explicit values; the filesystem is modelled as
the list of existing per-run working directories.  All statuses are the string
literals used by the source.
-/

namespace Judge

/-- Whitespace predicate modelling JavaScript `String.prototype.trim`
(the characters relevant to judge output: space, tab, carriage return,
line feed). -/
def isWs (c : Char) : Bool :=
  c = ' ' || c = '\t' || c = '\r' || c = '\n'

/-- Trim trailing whitespace from a character list. -/
def trimRightStep (l : List Char) : List Char :=
  (l.reverse.dropWhile isWs).reverse

/-- Model of JavaScript `String.prototype.trim` on character lists: trailing
whitespace is dropped, then leading whitespace. -/
def trimBoth (l : List Char) : List Char :=
  (trimRightStep l).dropWhile isWs

/-- Model of JavaScript `s.split('\n')` on character lists.  An empty string
splits to one empty line, and a trailing newline yields a final empty line,
exactly as in JavaScript. -/
def splitNl : List Char → List (List Char)
  | [] => [[]]
  | c :: cs =>
    if c = '\n' then [] :: splitNl cs
    else
      match splitNl cs with
      | [] => [[c]]
      | t :: ts => (c :: t) :: ts

/-- Model of JavaScript `lines.join('\n')` on character lists. -/
def joinNl : List (List Char) → List Char
  | [] => []
  | [l] => l
  | l :: ls => l ++ '\n' :: joinNl ls

/-- `CodeExecutor.normalizeOutput`: split on newlines, trim every line (both
ends, as JavaScript `trim()` does), drop lines that became empty, rejoin with
newlines, and trim the joined string. -/
def normalizeOutput (s : String) : String :=
  String.mk
    (trimBoth (joinNl (((splitNl s.toList).map trimBoth).filter
      (fun l => !l.isEmpty))))

/-- Reference transform following the specification text literally: split into
lines, trim only the TRAILING whitespace of each line (leading whitespace kept
intact), drop fully blank lines, rejoin. -/
def specNormalize (s : String) : String :=
  String.mk
    (joinNl (((splitNl s.toList).map trimRightStep).filter
      (fun l => !l.isEmpty)))

/-- Reference transform of the amended claim: split into lines, trim leading
and trailing whitespace of each line, drop fully blank lines, rejoin. -/
def specNormalizeAmended (s : String) : String :=
  String.mk
    (joinNl (((splitNl s.toList).map trimBoth).filter
      (fun l => !l.isEmpty)))

/-- Substring search on character lists, modelling JavaScript
`String.prototype.includes` (an empty pattern is contained in any string). -/
def includesChars (pat : List Char) : List Char → Bool
  | [] => pat.isEmpty
  | c :: cs => pat.isPrefixOf (c :: cs) || includesChars pat cs

/-- JavaScript `s.includes(pat)`. -/
def strIncludes (s pat : String) : Bool :=
  includesChars pat.toList s.toList

/-- JavaScript `a || b` on strings: the empty string is falsy. -/
def jsOr (a b : String) : String :=
  if a = "" then b else a

/-- One test case as stored in `testCaseSchema` (`Problem` model): input text,
expected output text, optional point value.  The Mongo `_id` is modelled as an
optional number (ObjectIds are never falsy). -/
structure TestCase where
  mongoId : Option Nat
  input : String
  output : String
  points : Option Nat
  deriving Repr, DecidableEq

/-- The point lookup `testCase.points || 10` of `CodeExecutor.execute`: in
JavaScript both `undefined` and `0` are falsy, so both fall back to 10. -/
def pointsOr10 : Option Nat → Nat
  | none => 10
  | some n => if n = 0 then 10 else n

/-- The id lookup `testCase._id || i` of `CodeExecutor.execute`. -/
def idOr (mongoId : Option Nat) (i : Nat) : Nat :=
  match mongoId with
  | none => i
  | some x => x

/-- Observable outcome of the `execAsync` call (plus the follow-up file reads)
inside `CodeExecutor.runTestCase` for one test case.  `completed` carries the
captured stdout and stderr of the wrapper command, the contents of the
per-case output file, the contents of the per-case error file (empty when the
file is missing) and the elapsed milliseconds.  `failed` is the rejection
path: the killing signal (if any), the exit code (if any) and the captured
stderr. -/
inductive RunExec where
  | completed (stdout stderr fileOut fileErr : String) (timeMs : Nat)
  | failed (signal : Option String) (code : Option Nat) (stderr : String)
  deriving Repr, DecidableEq

/-- The record returned by `CodeExecutor.runTestCase`. -/
structure CaseRun where
  passed : Bool
  time : Nat
  memory : Nat
  output : String
  error : String
  deriving Repr, DecidableEq

/-- `CodeExecutor.runTestCase`: on a completed run the output file is
normalized and compared against the normalized captured stdout of the wrapper
command (`this.normalizeOutput(stdout || '')` in the source); on a rejected
run the error is classified from the signal, the exit code and stderr, and
`passed` is false. -/
def runTestCase (outcome : RunExec) (timeLimit : Nat) : CaseRun :=
  match outcome with
  | .completed stdout stderr fileOut fileErr timeMs =>
    let normalizedOutput := normalizeOutput fileOut
    let normalizedExpectedOutput := normalizeOutput (jsOr stdout "")
    { passed := normalizedOutput == normalizedExpectedOutput
      time := timeMs
      memory := 0
      output := normalizedOutput
      error := jsOr fileErr stderr }
  | .failed signal code stderr =>
    let errorMessage :=
      if signal = some "SIGTERM" ∨ signal = some "SIGKILL" then
        "Time limit exceeded"
      else if code = some 134 then
        "Memory limit exceeded"
      else if stderr ≠ "" then
        "Runtime error: " ++ stderr
      else
        "Runtime error"
    { passed := false
      time := timeLimit
      memory := 0
      output := ""
      error := errorMessage }

/-- One element of the `results` array built by `CodeExecutor.execute`. -/
structure TestCaseResult where
  testCaseId : Nat
  passed : Bool
  timeTaken : Nat
  memoryUsed : Nat
  input : String
  expectedOutput : String
  actualOutput : String
  error : String
  score : Nat
  deriving Repr, DecidableEq

/-- Classification of one result's error text, as tested by the status scan
of `CodeExecutor.execute`: a falsy (empty) error is skipped, otherwise the
error text is probed for the three marker substrings in this order. -/
def classifyError (e : String) : Option String :=
  if e = "" then none
  else if strIncludes e "Time limit exceeded" then some "time-limit-exceeded"
  else if strIncludes e "Memory limit exceeded" then
    some "memory-limit-exceeded"
  else if strIncludes e "Runtime error" then some "runtime-error"
  else none

/-- The `for (const result of results)` scan with `break` of
`CodeExecutor.execute`: the first result whose error text matches a
classification decides it. -/
def firstClassified : List TestCaseResult → Option String
  | [] => none
  | r :: rs =>
    match classifyError r.error with
    | some s => some s
    | none => firstClassified rs

/-- The score-based status of `CodeExecutor.execute` before the error scan. -/
def baseStatus (totalScore maxScore : Nat) : String :=
  if totalScore = 0 then "wrong-answer"
  else if totalScore < maxScore then "partial-correct"
  else "accepted"

/-- Overall status determination of `CodeExecutor.execute` (lines 219-240 of
the executor): the score-based status, overridden by the classification of
the first result whose error text matches one. -/
def determineStatus (results : List TestCaseResult)
    (totalScore maxScore : Nat) : String :=
  match firstClassified results with
  | some s => s
  | none => baseStatus totalScore maxScore

/-- Observable outcome of the `execAsync(compileCommand, ...)` call inside
`CodeExecutor.compile`: `ok` means the process resolved (exit status 0) with
the given captured stderr; `threw` is the rejection path with the error's
`stderr` (possibly empty) and `message`. -/
inductive CompileExec where
  | ok (stderr : String) (timeMs : Nat)
  | threw (stderr : String) (message : String)
  deriving Repr, DecidableEq

/-- The record returned by `CodeExecutor.compile` (`error` is empty on
success, where the source leaves the field undefined). -/
structure CompileResult where
  success : Bool
  error : String
  time : Nat
  deriving Repr, DecidableEq

/-- `CodeExecutor.compile`: a resolved command with any nonempty stderr is a
failure carrying that stderr verbatim; a rejected command is a failure
carrying `error.stderr || error.message`. -/
def compile : CompileExec → CompileResult
  | .ok stderr t => if stderr ≠ "" then ⟨false, stderr, t⟩ else ⟨true, "", t⟩
  | .threw stderr message => ⟨false, jsOr stderr message, 0⟩

/-- What `CodeExecutor.prepareFiles` returns for a supported language. -/
structure PreparedFiles where
  sourceFile : String
  executableFile : String
  compileCommand : Option String
  runCommand : String
  deriving Repr, DecidableEq

/-- `CodeExecutor.prepareFiles`: per-language source/executable names and
build/run commands; an unsupported language throws (modelled as `none`). -/
def prepareFiles (workDir : String) (language : String) :
    Option PreparedFiles :=
  if language = "cpp" then
    some { sourceFile := workDir ++ "/solution.cpp"
           executableFile := workDir ++ "/solution"
           compileCommand := some ("g++ -std=c++17 -O2 -Wall " ++
             (workDir ++ "/solution.cpp") ++ " -o " ++ (workDir ++ "/solution"))
           runCommand := workDir ++ "/solution" }
  else if language = "python" then
    some { sourceFile := workDir ++ "/solution.py"
           executableFile := workDir ++ "/solution.py"
           compileCommand := none
           runCommand := "python3 " ++ (workDir ++ "/solution.py") }
  else if language = "java" then
    some { sourceFile := workDir ++ "/Solution.java"
           executableFile := workDir ++ "/Solution"
           compileCommand := some ("javac " ++ (workDir ++ "/Solution.java"))
           runCommand := "java -cp " ++ workDir ++ " Solution" }
  else if language = "javascript" then
    some { sourceFile := workDir ++ "/solution.js"
           executableFile := workDir ++ "/solution.js"
           compileCommand := none
           runCommand := "node " ++ (workDir ++ "/solution.js") }
  else
    none

/-- Accumulator of the test-case loop of `CodeExecutor.execute`. -/
structure LoopState where
  results : List TestCaseResult
  totalScore : Nat
  maxScore : Nat
  totalTime : Nat
  maxMemory : Nat
  deriving Repr, DecidableEq

/-- The test-case loop of `CodeExecutor.execute`, starting at index `i`: the
`i`-th sandbox interaction is `runOut i`; each case contributes
`testCase.points || 10` to `maxScore` and, when passed, to `totalScore`;
`totalTime` and `maxMemory` are running maxima. -/
def runCasesFrom (runOut : Nat → RunExec) (timeLimit : Nat) :
    Nat → List TestCase → LoopState
  | _, [] => ⟨[], 0, 0, 0, 0⟩
  | i, tc :: rest =>
    let r := runTestCase (runOut i) timeLimit
    let testCaseScore := if r.passed then pointsOr10 tc.points else 0
    let s := runCasesFrom runOut timeLimit (i + 1) rest
    { results :=
        { testCaseId := idOr tc.mongoId i
          passed := r.passed
          timeTaken := r.time
          memoryUsed := r.memory
          input := tc.input
          expectedOutput := tc.output
          actualOutput := r.output
          error := r.error
          score := testCaseScore } :: s.results
      totalScore := testCaseScore + s.totalScore
      maxScore := pointsOr10 tc.points + s.maxScore
      totalTime := max r.time s.totalTime
      maxMemory := max r.memory s.maxMemory }

/-- The three return shapes of `CodeExecutor.execute`: the early
compilation-failure return (`success: false, status: 'compilation-error'`),
the graded return (`success: true`, with the fields in source order) and the
catch-branch return (`success: false, status: 'runtime-error'`) taken when a
step of the try block throws (for example an unsupported language). -/
inductive ExecResult where
  | compilationError (error : String) (compilationTime : Nat)
  | graded (status : String) (score maxScore timeTaken memoryUsed : Nat)
      (testCasesPassed totalTestCases : Nat)
      (testCaseResults : List TestCaseResult)
  | hostError (error : String)
  deriving Repr, DecidableEq

/-- The `status` field of the result object returned by
`CodeExecutor.execute` (the catch branch reports `runtime-error`). -/
def ExecResult.statusOf : ExecResult → String
  | .compilationError _ _ => "compilation-error"
  | .graded s _ _ _ _ _ _ _ => s
  | .hostError _ => "runtime-error"

/-- The `testCaseResults` field of the result object returned by
`CodeExecutor.execute` (absent, modelled empty, on the failure shapes). -/
def ExecResult.caseResults : ExecResult → List TestCaseResult
  | .graded _ _ _ _ _ _ _ rs => rs
  | _ => []

/-- `fs.ensureDir` on the directory-set model of the filesystem. -/
def ensureDir (d : String) (dirs : List String) : List String :=
  if d ∈ dirs then dirs else d :: dirs

/-- `fs.remove` of a working directory (recursive removal). -/
def removeDir (d : String) (dirs : List String) : List String :=
  dirs.filter (fun x => x ≠ d)

/-- The `finally` block of `CodeExecutor.execute`: the working directory is
removed whatever exit path was taken. -/
def finallyCleanup (workDir : String) (dirs : List String) : List String :=
  removeDir workDir dirs

/-- `CodeExecutor.execute`: works in a fresh directory, prepares the
per-language files, compiles when the language has a build step (returning
the compilation failure immediately when it fails), runs every test case
through the sandbox, aggregates scores and determines the overall status.
The JavaScript `try`/`finally` is embedded by pairing every exit path of the
try block (early compilation-failure return, normal return, catch-branch
return) with the `finally` cleanup of the working directory. -/
def execute (dirs0 : List String) (workDir code language : String)
    (testCases : List TestCase) (compileExec : CompileExec)
    (runOut : Nat → RunExec) (timeLimit : Nat) :
    ExecResult × List String :=
  let dirs1 := ensureDir workDir dirs0
  match prepareFiles workDir language with
  | none =>
    (.hostError ("Unsupported language: " ++ language),
     finallyCleanup workDir dirs1)
  | some prep =>
    let runAll : ExecResult :=
      let st := runCasesFrom runOut timeLimit 0 testCases
      .graded (determineStatus st.results st.totalScore st.maxScore)
        st.totalScore st.maxScore st.totalTime st.maxMemory
        (st.results.filter (fun r => r.passed)).length testCases.length
        st.results
    match prep.compileCommand with
    | some _ =>
      let c := compile compileExec
      if !c.success then
        (.compilationError c.error c.time, finallyCleanup workDir dirs1)
      else
        (runAll, finallyCleanup workDir dirs1)
    | none => (runAll, finallyCleanup workDir dirs1)

/-- The `error` field of the result object returned by
`CodeExecutor.execute` (absent, modelled empty, on the graded shape). -/
def ExecResult.errorOf : ExecResult → String
  | .compilationError e _ => e
  | .graded _ _ _ _ _ _ _ _ => ""
  | .hostError e => e

/-- One stored submission document, as far as `processSubmission` touches it:
the lifecycle status and the compilation info error text saved on failure
results. -/
structure SubmissionDoc where
  status : String
  compilationInfoError : Option String
  deriving Repr, DecidableEq

/-- `Submission.findById` on the association-list model of the store. -/
def lookupSub (store : List (Nat × SubmissionDoc)) (sid : Nat) :
    Option SubmissionDoc :=
  match store with
  | [] => none
  | (k, doc) :: rest => if k = sid then some doc else lookupSub rest sid

/-- `submission.save()` on the association-list model of the store. -/
def saveSub (store : List (Nat × SubmissionDoc)) (sid : Nat)
    (doc : SubmissionDoc) : List (Nat × SubmissionDoc) :=
  match store with
  | [] => []
  | (k, old) :: rest =>
    if k = sid then (k, doc) :: rest else (k, old) :: saveSub rest sid doc

/-- `processSubmission` of `server/routes/submissions.js`: look the
submission up (a missing id is a silent no-op), save status `compiling`,
invoke the executor, then save the result's status — plus the compilation
info error on the failure shapes.  The Boolean of the returned pair records
whether the executor (a fresh grading process tree) was invoked.  No branch
inspects the stored status before running: the source has no in-flight guard
and no rejection outcome of any kind for an id that is already grading. -/
def processSubmission (store : List (Nat × SubmissionDoc)) (sid : Nat)
    (execResult : ExecResult) : List (Nat × SubmissionDoc) × Bool :=
  match lookupSub store sid with
  | none => (store, false)
  | some _ =>
    let store1 := saveSub store sid ⟨"compiling", none⟩
    let store2 :=
      match execResult with
      | .graded s _ _ _ _ _ _ _ => saveSub store1 sid ⟨s, none⟩
      | r => saveSub store1 sid ⟨r.statusOf, some r.errorOf⟩
    (store2, true)

/-! Helper notions and lemmas about trimming and joining. -/

/-- The first character, when present, is not whitespace. -/
def headNw : List Char → Bool
  | [] => true
  | c :: _ => !isWs c

/-- The last character, when present, is not whitespace. -/
def lastNw (l : List Char) : Bool :=
  match l.getLast? with
  | none => true
  | some c => !isWs c

theorem headNw_eq_head? (l : List Char) :
    headNw l = (match l.head? with
      | none => true
      | some c => !isWs c) := by
  cases l <;> rfl

theorem headNw_reverse (m : List Char) : headNw m.reverse = lastNw m := by
  rw [headNw_eq_head?, List.head?_reverse]
  rfl

theorem lastNw_reverse (m : List Char) : lastNw m.reverse = headNw m := by
  rw [← headNw_reverse m.reverse, List.reverse_reverse]

theorem headNw_dropWhile (l : List Char) :
    headNw (l.dropWhile isWs) = true := by
  induction l with
  | nil => rfl
  | cons c cs ih =>
    rw [List.dropWhile_cons]
    cases h : isWs c with
    | true => simpa [h] using ih
    | false => simp [headNw, h]

theorem lastNw_cons_cons (c c' : Char) (cs : List Char) :
    lastNw (c :: c' :: cs) = lastNw (c' :: cs) := by
  simp [lastNw, List.getLast?_cons_cons]

theorem lastNw_append (a b : List Char) (hb : b ≠ []) :
    lastNw (a ++ b) = lastNw b := by
  simp only [lastNw]
  rw [List.getLast?_append_of_ne_nil a hb]

theorem lastNw_dropWhile (l : List Char) (h : lastNw l = true) :
    lastNw (l.dropWhile isWs) = true := by
  induction l with
  | nil => rfl
  | cons c cs ih =>
    rw [List.dropWhile_cons]
    cases hw : isWs c with
    | false => simpa [hw] using h
    | true =>
      simp only [hw, if_true]
      apply ih
      cases cs with
      | nil => rfl
      | cons c' cs' => rw [← lastNw_cons_cons c c' cs']; exact h

theorem lastNw_trimRightStep (l : List Char) :
    lastNw (trimRightStep l) = true := by
  rw [trimRightStep, lastNw_reverse]
  exact headNw_dropWhile _

theorem headNw_trimBoth (l : List Char) : headNw (trimBoth l) = true :=
  headNw_dropWhile _

theorem lastNw_trimBoth (l : List Char) : lastNw (trimBoth l) = true :=
  lastNw_dropWhile _ (lastNw_trimRightStep l)

theorem dropWhile_eq_self_of_headNw (l : List Char) (h : headNw l = true) :
    l.dropWhile isWs = l := by
  cases l with
  | nil => rfl
  | cons c cs =>
    rw [List.dropWhile_cons]
    have hc : isWs c = false := by simpa [headNw] using h
    simp [hc]

theorem trimRightStep_eq_self (m : List Char) (h : lastNw m = true) :
    trimRightStep m = m := by
  rw [trimRightStep,
    dropWhile_eq_self_of_headNw m.reverse (by rw [headNw_reverse]; exact h),
    List.reverse_reverse]

theorem trimBoth_eq_self (m : List Char) (h1 : headNw m = true)
    (h2 : lastNw m = true) : trimBoth m = m := by
  rw [trimBoth, trimRightStep_eq_self m h2, dropWhile_eq_self_of_headNw m h1]

theorem headNw_append (l m : List Char) (h : l ≠ []) :
    headNw (l ++ m) = headNw l := by
  cases l with
  | nil => exact absurd rfl h
  | cons c cs => rfl

theorem joinNl_ne_nil (L : List (List Char)) (hL : L ≠ [])
    (h : ∀ x ∈ L, x ≠ []) : joinNl L ≠ [] := by
  cases L with
  | nil => exact absurd rfl hL
  | cons l ls =>
    cases ls with
    | nil => exact h l (by simp)
    | cons l' ls' =>
      have hl : l ≠ [] := h l (by simp)
      simp [joinNl]

theorem headNw_joinNl (L : List (List Char))
    (h : ∀ x ∈ L, x ≠ [] ∧ headNw x = true) :
    headNw (joinNl L) = true := by
  cases L with
  | nil => rfl
  | cons l ls =>
    have hl := h l (by simp)
    cases ls with
    | nil => simpa [joinNl] using hl.2
    | cons l' ls' =>
      have : joinNl (l :: l' :: ls') = l ++ '\n' :: joinNl (l' :: ls') := rfl
      rw [this, headNw_append _ _ hl.1]
      exact hl.2

theorem lastNw_joinNl (L : List (List Char))
    (h : ∀ x ∈ L, x ≠ [] ∧ lastNw x = true) :
    lastNw (joinNl L) = true := by
  induction L with
  | nil => rfl
  | cons l ls ih =>
    cases ls with
    | nil => simpa [joinNl] using (h l (by simp)).2
    | cons l' ls' =>
      have hj : joinNl (l :: l' :: ls') = l ++ '\n' :: joinNl (l' :: ls') :=
        rfl
      have htail : joinNl (l' :: ls') ≠ [] :=
        joinNl_ne_nil _ (by simp)
          (fun x hx => (h x (List.mem_cons_of_mem l hx)).1)
      rw [hj, lastNw_append l _ (by simp)]
      cases hm : joinNl (l' :: ls') with
      | nil => exact absurd hm htail
      | cons d ds =>
        rw [lastNw_cons_cons, ← hm]
        exact ih (fun x hx => h x (List.mem_cons_of_mem l hx))

theorem normalizeOutput_eq_specNormalizeAmended (s : String) :
    normalizeOutput s = specNormalizeAmended s := by
  rw [normalizeOutput, specNormalizeAmended]
  congr 1
  have hmem : ∀ x ∈ ((splitNl s.toList).map trimBoth).filter
      (fun l => !l.isEmpty), x ≠ [] ∧ headNw x = true ∧ lastNw x = true := by
    intro x hx
    rw [List.mem_filter] at hx
    obtain ⟨hx1, hx2⟩ := hx
    obtain ⟨y, _, rfl⟩ := List.mem_map.mp hx1
    exact ⟨by simpa using hx2, headNw_trimBoth y, lastNw_trimBoth y⟩
  exact trimBoth_eq_self _
    (headNw_joinNl _ (fun x hx => ⟨(hmem x hx).1, (hmem x hx).2.1⟩))
    (lastNw_joinNl _ (fun x hx => ⟨(hmem x hx).1, (hmem x hx).2.2⟩))

theorem splitNl_ne_nil (l : List Char) : splitNl l ≠ [] := by
  cases l with
  | nil => simp [splitNl]
  | cons c cs =>
    simp only [splitNl]
    split
    · simp
    · split <;> simp

theorem splitNl_append_newline (l : List Char) :
    splitNl (l ++ ['\n']) = splitNl l ++ [[]] := by
  induction l with
  | nil => simp [splitNl]
  | cons c cs ih =>
    rw [List.cons_append]
    by_cases h : c = '\n'
    · subst h
      have e1 : splitNl ('\n' :: (cs ++ ['\n'])) =
          [] :: splitNl (cs ++ ['\n']) := by simp [splitNl]
      have e2 : splitNl ('\n' :: cs) = [] :: splitNl cs := by simp [splitNl]
      rw [e1, e2, ih]
      rfl
    · have e1 : splitNl (c :: (cs ++ ['\n'])) =
          (match splitNl (cs ++ ['\n']) with
            | [] => [[c]]
            | t :: ts => (c :: t) :: ts) := by simp [splitNl, h]
      have e2 : splitNl (c :: cs) =
          (match splitNl cs with
            | [] => [[c]]
            | t :: ts => (c :: t) :: ts) := by simp [splitNl, h]
      rw [e1, e2, ih]
      cases hs : splitNl cs with
      | nil => exact absurd hs (splitNl_ne_nil cs)
      | cons t ts => simp

theorem normalizeOutput_append_newline (s : String) :
    normalizeOutput (s ++ "\n") = normalizeOutput s := by
  rw [normalizeOutput, normalizeOutput]
  have hdata : (s ++ "\n").toList = s.toList ++ ['\n'] := rfl
  rw [hdata, splitNl_append_newline]
  congr 2
  simp [List.filter_append, trimBoth, trimRightStep]

/-! Lemmas about the status scan. -/

theorem firstClassified_eq_head_filterMap (l : List TestCaseResult) :
    firstClassified l =
      (l.filterMap (fun r => classifyError r.error)).head? := by
  induction l with
  | nil => rfl
  | cons r rs ih =>
    cases h : classifyError r.error with
    | some s => simp [firstClassified, List.filterMap_cons, h]
    | none => simp [firstClassified, List.filterMap_cons, h, ih]

theorem firstClassified_of_first_match (l : List TestCaseResult)
    (c : String) :
    ∀ (i : Nat) (hi : i < l.length),
      (∀ j (hj : j < i),
        classifyError ((l.get ⟨j, Nat.lt_trans hj hi⟩).error) = none) →
      classifyError ((l.get ⟨i, hi⟩).error) = some c →
      firstClassified l = some c := by
  induction l with
  | nil =>
    intro i hi
    exact absurd hi (by simp)
  | cons r rs ih =>
    intro i hi hbefore hmatch
    cases i with
    | zero =>
      simp only [List.get] at hmatch
      simp [firstClassified, hmatch]
    | succ k =>
      have h0 : classifyError r.error = none := by
        have := hbefore 0 (Nat.succ_pos k)
        simpa using this
      simp only [firstClassified, h0]
      exact ih k (Nat.lt_of_succ_lt_succ hi)
        (fun j hj => by
          have := hbefore (j + 1) (Nat.succ_lt_succ hj)
          simpa using this)
        (by simpa using hmatch)

theorem execute_snd (dirs0 : List String) (workDir src language : String)
    (testCases : List TestCase) (ce : CompileExec) (f : Nat → RunExec)
    (tl : Nat) :
    (execute dirs0 workDir src language testCases ce f tl).2 =
      finallyCleanup workDir (ensureDir workDir dirs0) := by
  rw [execute]
  split
  · rfl
  · split
    · cases h : (compile ce).success <;> simp [h]
    · rfl

theorem execute_fst_of_build_failure (dirs0 : List String)
    (workDir src language : String) (testCases : List TestCase)
    (ce : CompileExec) (f : Nat → RunExec) (tl : Nat)
    (hlang : language = "cpp" ∨ language = "java")
    (hfail : (compile ce).success = false) :
    (execute dirs0 workDir src language testCases ce f tl).1 =
      ExecResult.compilationError (compile ce).error (compile ce).time := by
  rcases hlang with h | h <;> subst h <;>
    simp [execute, prepareFiles, hfail]

/-! The ten claims. -/

/-- C1: the claim states that a test case whose sandboxed execution completes
is marked passed exactly when the normalized actual output equals the
normalized expected output stored in the TestCase.  The code instead compares
the normalized output file against the normalized captured stdout of the
wrapper command (which redirects the program's stdout into the output file,
so the captured stdout is empty), and never reads `testCase.output` during
the comparison.  Evaluation at the failing input: a case whose expected
output is `hello` and whose program printed exactly `hello` is marked failed
(its result record even carries equal expected and actual fields), while a
program that prints nothing is marked passed. -/
theorem c1_comparison_ignores_stored_expected :
    ((runCasesFrom (fun _ => RunExec.completed "" "" "hello" "" 3) 5000 0
        [⟨none, "5", "hello", none⟩]).results.map
        (fun r => (r.passed, r.expectedOutput, r.actualOutput)) =
      [(false, "hello", "hello")])
  ∧ (runTestCase (RunExec.completed "" "" "" "" 3) 5000).passed = true
  ∧ normalizeOutput "" ≠ normalizeOutput "hello" := by decide

/-- C2 counterexample: a run whose build succeeded and whose second case
timed out resolves to `runtime-error`, not `time-limit-exceeded`, because the
scan stops at the first case whose error text matches any classification (the
first case exhibits a runtime failure). -/
theorem c2_first_failure_wins_counterexample :
    (let res := (execute [] "wd" "src" "python"
        [⟨none, "i1", "o1", none⟩, ⟨none, "i2", "o2", none⟩]
        (CompileExec.ok "" 0)
        (fun i => if i = 0 then RunExec.failed none none ""
          else RunExec.failed (some "SIGTERM") none "") 5000).1
     res.statusOf = "runtime-error"
     ∧ res.caseResults.map (fun r => r.error) =
        ["Runtime error", "Time limit exceeded"]
     ∧ res.statusOf ≠ "time-limit-exceeded") := by decide

/-- C2 amended: the overall verdict is the classification of the first result
in list order whose error text matches a recognized classification; in
particular when a case classified as timed out is preceded by no case
matching any classification, the verdict is `time-limit-exceeded`. -/
theorem c2_first_match_precedence (results : List TestCaseResult)
    (totalScore maxScore : Nat) (i : Nat) (hi : i < results.length)
    (hbefore : ∀ j (hj : j < i),
      classifyError ((results.get ⟨j, Nat.lt_trans hj hi⟩).error) = none)
    (htle : classifyError ((results.get ⟨i, hi⟩).error) =
      some "time-limit-exceeded") :
    determineStatus results totalScore maxScore = "time-limit-exceeded" := by
  have h := firstClassified_of_first_match results "time-limit-exceeded"
    i hi hbefore htle
  simp [determineStatus, h]

/-- Witness for the amended C2 theorem at a concrete one-case run. -/
theorem c2_first_match_precedence_witness :
    determineStatus [⟨0, false, 5000, 0, "i", "o", "", "Time limit exceeded",
      0⟩] 0 10 = "time-limit-exceeded" :=
  c2_first_match_precedence
    [⟨0, false, 5000, 0, "i", "o", "", "Time limit exceeded", 0⟩] 0 10 0
    (by decide) (fun j hj => absurd hj (Nat.not_lt_zero j)) (by decide)

/-- C3 counterexample: two permutations of the same multiset of per-case
results resolve to different verdicts (`runtime-error` first versus
`time-limit-exceeded` first), so the verdict is not order-independent. -/
theorem c3_order_dependence_counterexample :
    ([⟨0, false, 5000, 0, "i", "o", "", "Runtime error", 0⟩,
      ⟨1, false, 5000, 0, "i", "o", "", "Time limit exceeded", 0⟩] :
        List TestCaseResult).Perm
      [⟨1, false, 5000, 0, "i", "o", "", "Time limit exceeded", 0⟩,
        ⟨0, false, 5000, 0, "i", "o", "", "Runtime error", 0⟩]
  ∧ determineStatus
      [⟨0, false, 5000, 0, "i", "o", "", "Runtime error", 0⟩,
        ⟨1, false, 5000, 0, "i", "o", "", "Time limit exceeded", 0⟩] 0 20 ≠
    determineStatus
      [⟨1, false, 5000, 0, "i", "o", "", "Time limit exceeded", 0⟩,
        ⟨0, false, 5000, 0, "i", "o", "", "Runtime error", 0⟩] 0 20 :=
  ⟨List.Perm.swap _ _ _, by decide⟩

/-- C3 amended: the verdict is invariant under permutation of the result list
whenever all results whose error text matches a recognized classification
match the same one (in particular whenever at most one classification occurs,
or none does and the verdict is purely score-based). -/
theorem c3_verdict_perm_invariant (l1 l2 : List TestCaseResult)
    (totalScore maxScore : Nat) (hperm : l1.Perm l2)
    (hsame : ∃ c, ∀ r ∈ l1, classifyError r.error = none ∨
      classifyError r.error = some c) :
    determineStatus l1 totalScore maxScore =
      determineStatus l2 totalScore maxScore := by
  obtain ⟨c, hc⟩ := hsame
  have hmap : (l1.filterMap (fun r => classifyError r.error)).Perm
      (l2.filterMap (fun r => classifyError r.error)) := hperm.filterMap _
  have hall : ∀ x ∈ l1.filterMap (fun r => classifyError r.error), x = c := by
    intro x hx
    obtain ⟨r, hr, hxr⟩ := List.mem_filterMap.mp hx
    rcases hc r hr with hnone | hsome
    · rw [hnone] at hxr
      cases hxr
    · rw [hsome] at hxr
      injection hxr with hh
      exact hh.symm
  have hhead : (l1.filterMap (fun r => classifyError r.error)).head? =
      (l2.filterMap (fun r => classifyError r.error)).head? := by
    cases h1 : l1.filterMap (fun r => classifyError r.error) with
    | nil =>
      have hlen : (l2.filterMap (fun r => classifyError r.error)).length
          = 0 := by
        rw [← hmap.length_eq, h1]
        rfl
      rw [List.length_eq_zero.mp hlen]
    | cons a as =>
      cases h2 : l2.filterMap (fun r => classifyError r.error) with
      | nil =>
        have hlen : (l1.filterMap (fun r => classifyError r.error)).length
            = 0 := by
          rw [hmap.length_eq, h2]
          rfl
        rw [h1] at hlen
        exact absurd hlen (by simp)
      | cons b bs =>
        have ha : a = c := hall a (by rw [h1]; exact List.mem_cons_self a as)
        have hb : b = c := by
          apply hall b
          rw [hmap.mem_iff, h2]
          exact List.mem_cons_self b bs
        simp [ha, hb]
  rw [determineStatus, determineStatus, firstClassified_eq_head_filterMap,
    firstClassified_eq_head_filterMap, hhead]

/-- Witness for the amended C3 theorem: two timed-out results in either
order resolve identically. -/
theorem c3_verdict_perm_invariant_witness :
    determineStatus
      [⟨0, false, 5000, 0, "i", "o", "", "Time limit exceeded", 0⟩,
        ⟨1, false, 5000, 0, "j", "p", "", "Time limit exceeded", 0⟩] 0 20 =
    determineStatus
      [⟨1, false, 5000, 0, "j", "p", "", "Time limit exceeded", 0⟩,
        ⟨0, false, 5000, 0, "i", "o", "", "Time limit exceeded", 0⟩] 0 20 :=
  c3_verdict_perm_invariant _ _ 0 20 (List.Perm.swap _ _ _)
    ⟨"time-limit-exceeded", by decide⟩

/-- C4 counterexample: the code's normalization trims leading whitespace of
each line as well, so it differs from the claimed reference transform (which
keeps leading whitespace intact) already on the one-line input of a space
followed by the letter a. -/
theorem c4_trailing_trim_counterexample :
    ¬ (normalizeOutput " a" = specNormalize " a") := by decide

/-- C4 amended: the normalization function equals the reference transform
that trims leading AND trailing whitespace from each line, drops fully blank
lines and rejoins; a trailing-newline-only difference never changes the
normalized value, while an internal extra space does. -/
theorem c4_normalization_amended :
    (∀ s : String, normalizeOutput s = specNormalizeAmended s)
  ∧ (∀ s : String, normalizeOutput (s ++ "\n") = normalizeOutput s)
  ∧ normalizeOutput "a b" ≠ normalizeOutput "a  b" :=
  ⟨normalizeOutput_eq_specNormalizeAmended, normalizeOutput_append_newline,
    by decide⟩

/-- C5: when the language has a build step and the build fails, `execute`
returns the compilation failure immediately, carrying the build diagnostic
verbatim, and the result does not depend on the sandbox interactions — no
test case is attempted. -/
theorem c5_build_failure_short_circuits (dirs0 : List String)
    (workDir src language : String) (testCases : List TestCase)
    (ce : CompileExec) (f g : Nat → RunExec) (tl : Nat)
    (hlang : language = "cpp" ∨ language = "java")
    (hfail : (compile ce).success = false) :
    (execute dirs0 workDir src language testCases ce f tl).1 =
      ExecResult.compilationError (compile ce).error (compile ce).time
  ∧ (execute dirs0 workDir src language testCases ce f tl).1 =
    (execute dirs0 workDir src language testCases ce g tl).1 :=
  ⟨execute_fst_of_build_failure dirs0 workDir src language testCases ce f tl
      hlang hfail,
    (execute_fst_of_build_failure dirs0 workDir src language testCases ce f
        tl hlang hfail).trans
      (execute_fst_of_build_failure dirs0 workDir src language testCases ce g
        tl hlang hfail).symm⟩

/-- Witness for C5: a C++ build whose compiler wrote a warning to stderr. -/
theorem c5_build_failure_short_circuits_witness :
    (execute [] "wd" "src" "cpp" [⟨none, "1", "1", none⟩]
        (CompileExec.ok "warning: unused variable" 7)
        (fun _ => RunExec.completed "" "" "" "" 0) 5000).1 =
      ExecResult.compilationError "warning: unused variable" 7 :=
  (c5_build_failure_short_circuits [] "wd" "src" "cpp"
    [⟨none, "1", "1", none⟩] (CompileExec.ok "warning: unused variable" 7)
    (fun _ => RunExec.completed "" "" "" "" 0)
    (fun _ => RunExec.completed "" "" "" "" 0) 5000 (Or.inl rfl)
    (by decide)).1

/-- C6: a grading run over an empty test-case list whose build did not fail
is graded `wrong-answer` with score 0 and maxScore 0 — never `accepted`. -/
theorem c6_zero_cases_wrong_answer (dirs0 : List String)
    (workDir src language : String) (ce : CompileExec) (f : Nat → RunExec)
    (tl : Nat)
    (hlang : language = "cpp" ∨ language = "python" ∨ language = "java" ∨
      language = "javascript")
    (hbuild : (compile ce).success = true) :
    (execute dirs0 workDir src language [] ce f tl).1 =
      ExecResult.graded "wrong-answer" 0 0 0 0 0 0 [] := by
  rcases hlang with h | h | h | h <;> subst h <;>
    simp [execute, prepareFiles, hbuild, runCasesFrom, determineStatus,
      firstClassified, baseStatus]

/-- Witness for C6: a Python run with no test cases. -/
theorem c6_zero_cases_wrong_answer_witness :
    (execute [] "wd" "src" "python" [] (CompileExec.ok "" 0)
        (fun _ => RunExec.completed "" "" "" "" 0) 5000).1 =
      ExecResult.graded "wrong-answer" 0 0 0 0 0 0 [] :=
  c6_zero_cases_wrong_answer [] "wd" "src" "python" (CompileExec.ok "" 0)
    (fun _ => RunExec.completed "" "" "" "" 0) 5000
    (Or.inr (Or.inl rfl)) (by decide)

/-- C7: the claim states that a second grading request for a submission id
already in flight is rejected with `AlreadyInProgress` and starts no second
process tree.  The code has no such guard: `processSubmission` applied to a
submission whose stored status is already `compiling` proceeds to invoke the
executor again (the returned flag records the invocation) and overwrites the
stored status, and no rejection outcome exists on any path. -/
theorem c7_no_inflight_guard :
    (processSubmission [(1, ⟨"compiling", none⟩)] 1
        (ExecResult.graded "accepted" 10 10 3 0 1 1 [])).2 = true
  ∧ (processSubmission [(1, ⟨"compiling", none⟩)] 1
        (ExecResult.graded "accepted" 10 10 3 0 1 1 [])).1 =
      [(1, ⟨"accepted", none⟩)] := by decide

/-- C8: the per-run working directory is removed on every exit path of
`execute` — unsupported-language host error, compilation failure, and normal
grading all pair their result with the `finally` cleanup, so the directory is
never present in the resulting filesystem. -/
theorem c8_workdir_always_removed (dirs0 : List String)
    (workDir src language : String) (testCases : List TestCase)
    (ce : CompileExec) (f : Nat → RunExec) (tl : Nat) :
    workDir ∉ (execute dirs0 workDir src language testCases ce f tl).2 := by
  rw [execute_snd]
  simp [finallyCleanup, removeDir]

/-- C9: a test case whose declared point value is exactly 0 is scored as if
its value were 10, because `testCase.points || 10` treats the falsy 0 like an
absent value: it contributes 10 to `maxScore` and, when the case passes, 10
to `totalScore`. -/
theorem c9_zero_points_scored_as_ten (f : Nat → RunExec) (tl i : Nat)
    (tc : TestCase) (rest : List TestCase) (h : tc.points = some 0) :
    (runCasesFrom f tl i (tc :: rest)).maxScore =
      10 + (runCasesFrom f tl (i + 1) rest).maxScore
  ∧ ((runTestCase (f i) tl).passed = true →
      (runCasesFrom f tl i (tc :: rest)).totalScore =
        10 + (runCasesFrom f tl (i + 1) rest).totalScore) := by
  constructor
  · simp [runCasesFrom, h, pointsOr10]
  · intro hp
    simp [runCasesFrom, h, pointsOr10, hp]

/-- Witness for C9: one passing test case declared with 0 points scores 10
out of 10. -/
theorem c9_zero_points_scored_as_ten_witness :
    (runCasesFrom (fun _ => RunExec.completed "" "" "" "" 0) 1000 0
        [⟨none, "x", "y", some 0⟩]).maxScore =
      10 + (runCasesFrom (fun _ => RunExec.completed "" "" "" "" 0) 1000 1
        []).maxScore
  ∧ ((runTestCase (RunExec.completed "" "" "" "" 0) 1000).passed = true →
      (runCasesFrom (fun _ => RunExec.completed "" "" "" "" 0) 1000 0
          [⟨none, "x", "y", some 0⟩]).totalScore =
        10 + (runCasesFrom (fun _ => RunExec.completed "" "" "" "" 0) 1000 1
          []).totalScore) :=
  c9_zero_points_scored_as_ten (fun _ => RunExec.completed "" "" "" "" 0)
    1000 0 ⟨none, "x", "y", some 0⟩ [] rfl

/-- C10: a compile step whose process resolved (exit status 0) but wrote any
text to stderr is reported as a failed build carrying that stderr verbatim,
and through `execute` a C++ submission with such a build yields the
compilation-error result; the C++ compile command is the g++ invocation with
the -Wall flag, whose warnings arrive on stderr. -/
theorem c10_stderr_fails_build (dirs0 : List String)
    (workDir src : String) (testCases : List TestCase) (stderr : String)
    (t : Nat) (f : Nat → RunExec) (tl : Nat) (h : stderr ≠ "") :
    compile (CompileExec.ok stderr t) = ⟨false, stderr, t⟩
  ∧ (execute dirs0 workDir src "cpp" testCases (CompileExec.ok stderr t)
      f tl).1 = ExecResult.compilationError stderr t
  ∧ (prepareFiles workDir "cpp").map (fun p => p.compileCommand) =
      some (some ("g++ -std=c++17 -O2 -Wall " ++
        (workDir ++ "/solution.cpp") ++ " -o " ++ (workDir ++ "/solution"))) := by
  have hcomp : compile (CompileExec.ok stderr t) =
      ⟨false, stderr, t⟩ := by
    simp [compile, h]
  refine ⟨hcomp, ?_, by simp [prepareFiles]⟩
  have hfail : (compile (CompileExec.ok stderr t)).success = false := by
    rw [hcomp]
  have hfst := execute_fst_of_build_failure dirs0 workDir src "cpp"
    testCases (CompileExec.ok stderr t) f tl (Or.inl rfl) hfail
  rw [hfst, hcomp]

/-- Witness for C10: a resolved g++ run with a -Wall warning on stderr. -/
theorem c10_stderr_fails_build_witness :
    compile (CompileExec.ok "warning: unused variable x [-Wall]" 4) =
      ⟨false, "warning: unused variable x [-Wall]", 4⟩
  ∧ (execute [] "wd" "src" "cpp" []
      (CompileExec.ok "warning: unused variable x [-Wall]" 4)
      (fun _ => RunExec.completed "" "" "" "" 0) 5000).1 =
        ExecResult.compilationError "warning: unused variable x [-Wall]" 4
  ∧ (prepareFiles "wd" "cpp").map (fun p => p.compileCommand) =
      some (some ("g++ -std=c++17 -O2 -Wall " ++
        ("wd" ++ "/solution.cpp") ++ " -o " ++ ("wd" ++ "/solution"))) :=
  c10_stderr_fails_build [] "wd" "src" []
    "warning: unused variable x [-Wall]" 4
    (fun _ => RunExec.completed "" "" "" "" 0) 5000 (by decide)

end Judge
